import Mathlib

/-!
Verification of the two-tier cache engine and the documentation extraction
pipeline of the mantine-ui-server repository, shallowly embedded in Lean.

The cache engine (`setCache`, `getCache`, `isValidCacheEntry`,
`getCacheFilePath`) is translated from `src/index.ts` (cache section);
the extraction pipeline (`extractProps`, `extractRelatedComponents`,
`fetchSession`) from `src/documentation/fetcher.ts`.

Modelling conventions:
* JavaScript timestamps (`Date.now()`, entry timestamps) are `Int`
  milliseconds; `ttl` is an `Int` (a JS `number` of milliseconds).
* The in-memory cache map and the file system are explicit state
  (`CacheState`): total functions from keys / file paths to optional
  contents.  `fs.writeFileSync` / `fs.readFileSync` / `JSON.parse`
  fallibility is modelled with `FileContent.corrupt` (an existing file
  whose read or parse throws) and, for writes, an explicit success flag
  (`setCacheF`), since fallible code is embedded as `Except`.
* `os.homedir()` is modelled as the fixed string "/home/user".
-/

/-- `CacheEntry<T>` from `src/types/index.ts`: `data`, `timestamp` (a `Date`,
modelled as `Int` epoch milliseconds), `version`. -/
structure CacheEntry (α : Type) where
  data : α
  timestamp : Int
  version : String
deriving DecidableEq

/-- The `storage` field of `CacheConfig`: `'memory' | 'file'`. -/
inductive CacheStorage where
  | memory
  | file
deriving DecidableEq

/-- `CacheConfig` from `src/types/index.ts`: `ttl` in milliseconds and the
storage mode. -/
structure CacheConfig where
  ttl : Int
  storage : CacheStorage
deriving DecidableEq

/-- Contents of one cache file on disk.  `corrupt` models a file whose
`fs.readFileSync`/`JSON.parse` throws (unparseable or unreadable);
`valid e` models a file holding the JSON serialization of entry `e`. -/
inductive FileContent (α : Type) where
  | corrupt
  | valid (e : CacheEntry α)
deriving DecidableEq

/-- The mutable state the cache code acts on: the module-level
`memoryCache` record and the file system restricted to the cache
directory (keyed by full file path). -/
structure CacheState (α : Type) where
  memoryCache : String → Option (CacheEntry α)
  fileSystem : String → Option (FileContent α)

/-- Pointwise update of a string-keyed map (`memoryCache[key] = entry`,
`fs.writeFileSync(path, ...)`). -/
def updateMap {β : Type} (f : String → Option β) (k : String) (v : Option β) :
    String → Option β :=
  fun q => if q = k then v else f q

/-- The empty state: fresh process, empty cache directory. -/
def emptyCacheState (α : Type) : CacheState α :=
  ⟨fun _ => none, fun _ => none⟩

/-- `key.replace(/[^a-z0-9]/gi, '_')` from `getCacheFilePath`
(src/index.ts line 504): every character outside `[A-Za-z0-9]` becomes
an underscore. -/
def sanitizeKey (key : String) : String :=
  String.mk (key.data.map (fun c => if c.isAlphanum then c else '_'))

/-- `CACHE_DIR = path.join(os.homedir(), '.mantine-mcp-cache')`
(src/index.ts line 487), with `os.homedir()` modelled as a fixed string. -/
def CACHE_DIR : String := "/home/user/.mantine-mcp-cache"

/-- `getCacheFilePath` (src/index.ts lines 503-505):
`path.join(CACHE_DIR, sanitized + '.json')`. -/
def getCacheFilePath (key : String) : String :=
  CACHE_DIR ++ "/" ++ sanitizeKey key ++ ".json"

/-- `isValidCacheEntry` (src/index.ts lines 585-604): `ttl == 0` means
disabled, a version mismatch is invalid, otherwise the entry is valid
while `now - entry.timestamp < ttl`. -/
def isValidCacheEntry {α : Type} (entry : CacheEntry α) (ttl : Int)
    (currentVersion : String) (now : Int) : Bool :=
  if ttl = 0 then false
  else if entry.version ≠ currentVersion then false
  else decide (now - entry.timestamp < ttl)

/-- `setCache` (src/index.ts lines 514-535): always store the entry in
memory; when `storage === 'file'` also write the serialized entry to the
per-key file.  `now` is the `new Date()` taken at the call. -/
def setCache {α : Type} (key : String) (value : α) (config : CacheConfig)
    (version : String) (now : Int) (st : CacheState α) : CacheState α :=
  let entry : CacheEntry α := ⟨value, now, version⟩
  let st1 : CacheState α :=
    { st with memoryCache := updateMap st.memoryCache key (some entry) }
  if config.storage = CacheStorage.file then
    { st1 with
      fileSystem :=
        updateMap st1.fileSystem (getCacheFilePath key)
          (some (FileContent.valid entry)) }
  else st1

/-- `setCache` with the fallibility of the file-tier write made explicit:
`writeOk = false` models `fs.writeFileSync` (or `ensureCacheDir`) throwing.
There is no try/catch in the source, so the exception propagates to the
caller (`Except.error`); the memory write at line 527 has already happened
and is kept in the resulting state. -/
def setCacheF {α : Type} (key : String) (value : α) (config : CacheConfig)
    (version : String) (now : Int) (writeOk : Bool) (st : CacheState α) :
    Except Unit Unit × CacheState α :=
  let entry : CacheEntry α := ⟨value, now, version⟩
  let st1 : CacheState α :=
    { st with memoryCache := updateMap st.memoryCache key (some entry) }
  if config.storage = CacheStorage.file then
    if writeOk then
      (Except.ok (),
       { st1 with
         fileSystem :=
           updateMap st1.fileSystem (getCacheFilePath key)
             (some (FileContent.valid entry)) })
    else (Except.error (), st1)
  else (Except.ok (), st1)

/-- The file-tier branch of `getCache` (src/index.ts lines 556-573): when
`storage === 'file'`, a missing file falls through to `null`, a file whose
read/parse throws is caught and logged (a miss), a parsed entry is returned
and promoted into memory iff valid. -/
def getCacheFileTier {α : Type} (key : String) (config : CacheConfig)
    (currentVersion : String) (now : Int) (st : CacheState α) :
    Option α × CacheState α :=
  if config.storage = CacheStorage.file then
    match st.fileSystem (getCacheFilePath key) with
    | some (FileContent.valid fileEntry) =>
      if isValidCacheEntry fileEntry config.ttl currentVersion now then
        (some fileEntry.data,
         { st with memoryCache := updateMap st.memoryCache key (some fileEntry) })
      else (none, st)
    | some FileContent.corrupt => (none, st)
    | none => (none, st)
  else (none, st)

/-- `getCache` (src/index.ts lines 544-576): consult memory first, fall
back to the file tier, otherwise report a miss.  Returns the read value
together with the state after the call (the state changes only on a
disk-to-memory promotion). -/
def getCache {α : Type} (key : String) (config : CacheConfig)
    (currentVersion : String) (now : Int) (st : CacheState α) :
    Option α × CacheState α :=
  match st.memoryCache key with
  | some memoryEntry =>
    if isValidCacheEntry memoryEntry config.ttl currentVersion now then
      (some memoryEntry.data, st)
    else getCacheFileTier key config currentVersion now st
  | none => getCacheFileTier key config currentVersion now st

/-- Removing one key from the in-process map only (the claim's simulation
of a process restart: the file tier survives, the memory tier does not). -/
def clearMemoryOnly {α : Type} (key : String) (st : CacheState α) :
    CacheState α :=
  { st with memoryCache := updateMap st.memoryCache key none }

/-- Unfolding of the Boolean validity check into its three conditions. -/
theorem isValidCacheEntry_eq_true_iff {α : Type} (e : CacheEntry α)
    (ttl : Int) (v : String) (now : Int) :
    isValidCacheEntry e ttl v now = true ↔
      (ttl ≠ 0 ∧ e.version = v ∧ now - e.timestamp < ttl) := by
  unfold isValidCacheEntry
  by_cases h0 : ttl = 0
  · simp [h0]
  · by_cases hv : e.version = v
    · simp [h0, hv]
    · simp [h0, hv]

/-- The state after `setCache` holds the written entry in memory. -/
theorem setCache_memoryCache {α : Type} (key : String) (value : α)
    (config : CacheConfig) (version : String) (now : Int) (st : CacheState α) :
    (setCache key value config version now st).memoryCache =
      updateMap st.memoryCache key (some ⟨value, now, version⟩) := by
  unfold setCache
  by_cases h : config.storage = CacheStorage.file <;> simp [h]

/-- C1: for an entry stored in the tier `getCache` consults (the memory
tier, or the file tier when file storage is configured and memory has no
entry for the key), the lookup returns the entry's data iff
`ttl ≠ 0 ∧ entry.version = currentVersion ∧ now - entry.timestamp < ttl`;
so `ttl = 0`, a version mismatch, or elapsed time `≥ ttl` (strict
boundary) each force a miss. -/
theorem getCache_hit_iff_valid {α : Type} (key : String) (config : CacheConfig)
    (currentVersion : String) (now : Int) (st : CacheState α) (e : CacheEntry α) :
    (st.memoryCache key = some e →
      st.fileSystem (getCacheFilePath key) = none →
      ((getCache key config currentVersion now st).1 = some e.data ↔
        (config.ttl ≠ 0 ∧ e.version = currentVersion ∧
          now - e.timestamp < config.ttl)))
    ∧
    (st.memoryCache key = none →
      config.storage = CacheStorage.file →
      st.fileSystem (getCacheFilePath key) = some (FileContent.valid e) →
      ((getCache key config currentVersion now st).1 = some e.data ↔
        (config.ttl ≠ 0 ∧ e.version = currentVersion ∧
          now - e.timestamp < config.ttl))) := by
  constructor
  · intro hmem hfile
    rw [← isValidCacheEntry_eq_true_iff e config.ttl currentVersion now]
    unfold getCache
    rw [hmem]
    by_cases hv : isValidCacheEntry e config.ttl currentVersion now = true
    · simp [hv]
    · simp only [Bool.not_eq_true] at hv
      simp only [hv, if_false]
      unfold getCacheFileTier
      by_cases hs : config.storage = CacheStorage.file
      · simp [hs, hfile, hv]
      · simp [hs, hv]
  · intro hmem hs hfile
    rw [← isValidCacheEntry_eq_true_iff e config.ttl currentVersion now]
    unfold getCache
    rw [hmem]
    unfold getCacheFileTier
    rw [if_pos hs, hfile]
    by_cases hv : isValidCacheEntry e config.ttl currentVersion now = true
    · simp [hv]
    · simp only [Bool.not_eq_true] at hv
      simp [hv]

/-- Witness for C1: a concrete hit through the memory tier. -/
theorem getCache_hit_iff_valid_witness :
    (getCache "k" ⟨100, CacheStorage.memory⟩ "v1" 10
        { emptyCacheState Nat with
          memoryCache :=
            updateMap (emptyCacheState Nat).memoryCache "k" (some ⟨42, 0, "v1"⟩) }).1 =
      some 42 :=
  ((getCache_hit_iff_valid "k" ⟨100, CacheStorage.memory⟩ "v1" 10 _
      ⟨42, 0, "v1"⟩).1 (by simp [updateMap, emptyCacheState]) rfl).2
    (by refine ⟨by decide, rfl, by decide⟩)

/-- C2: writing with `setCache` and reading back with the same key,
config and version, within the TTL, returns the written value. -/
theorem setCache_getCache_roundtrip {α : Type} (key : String) (value : α)
    (config : CacheConfig) (version : String) (t now : Int) (st : CacheState α)
    (httl : 0 < config.ttl) (hfresh : now - t < config.ttl) :
    (getCache key config version now
        (setCache key value config version t st)).1 = some value := by
  unfold getCache
  rw [setCache_memoryCache]
  have hm : updateMap st.memoryCache key (some ⟨value, t, version⟩) key =
      some ⟨value, t, version⟩ := by simp [updateMap]
  rw [hm]
  have hv : isValidCacheEntry (⟨value, t, version⟩ : CacheEntry α)
      config.ttl version now = true := by
    rw [isValidCacheEntry_eq_true_iff]
    exact ⟨by omega, rfl, hfresh⟩
  simp [hv]

/-- Witness for C2 at a concrete key, value, config and clock. -/
theorem setCache_getCache_roundtrip_witness :
    (getCache "doc:Button" ⟨3600000, CacheStorage.file⟩ "7.16.2" 1000
        (setCache "doc:Button" 7 ⟨3600000, CacheStorage.file⟩ "7.16.2" 400
          (emptyCacheState Nat))).1 = some 7 :=
  setCache_getCache_roundtrip "doc:Button" 7 ⟨3600000, CacheStorage.file⟩
    "7.16.2" 400 1000 (emptyCacheState Nat) (by decide) (by decide)

/-- C10: `setCache` stores unconditionally: the entry always lands in the
in-process map, the per-key file is written whenever `storage = file`, and
the `ttl` field plays no role in the write (replacing it changes nothing). -/
theorem setCache_unconditional {α : Type} (key : String) (value : α)
    (config : CacheConfig) (version : String) (now : Int) (st : CacheState α) :
    ((setCache key value config version now st).memoryCache key =
        some ⟨value, now, version⟩)
    ∧
    (config.storage = CacheStorage.file →
      (setCache key value config version now st).fileSystem
          (getCacheFilePath key) = some (FileContent.valid ⟨value, now, version⟩))
    ∧
    (∀ ttl2 : Int,
      setCache key value ⟨ttl2, config.storage⟩ version now st =
        setCache key value config version now st) := by
  refine ⟨?_, ?_, ?_⟩
  · rw [setCache_memoryCache]; simp [updateMap]
  · intro hs
    unfold setCache
    simp [hs, updateMap]
  · intro ttl2
    unfold setCache
    rfl

/-- Witness for C10: a concrete write with `ttl = 0` and file storage
still lands in both tiers. -/
theorem setCache_unconditional_witness :
    ((setCache "a b" 3 ⟨0, CacheStorage.file⟩ "v" 5
        (emptyCacheState Nat)).memoryCache "a b" = some ⟨3, 5, "v"⟩)
    ∧
    ((setCache "a b" 3 ⟨0, CacheStorage.file⟩ "v" 5
        (emptyCacheState Nat)).fileSystem (getCacheFilePath "a b") =
      some (FileContent.valid ⟨3, 5, "v"⟩)) :=
  ⟨(setCache_unconditional "a b" 3 ⟨0, CacheStorage.file⟩ "v" 5
      (emptyCacheState Nat)).1,
   (setCache_unconditional "a b" 3 ⟨0, CacheStorage.file⟩ "v" 5
      (emptyCacheState Nat)).2.1 rfl⟩

/-- C5: with file storage and a live TTL, writing, dropping the key from
the in-process map only (process restart), and reading again still
returns the value, and the disk entry is promoted back into the
in-process map by that read. -/
theorem getCache_promotes_from_file {α : Type} (key : String) (value : α)
    (config : CacheConfig) (version : String) (t now : Int) (st : CacheState α)
    (hs : config.storage = CacheStorage.file)
    (httl : 0 < config.ttl) (hfresh : now - t < config.ttl) :
    ((getCache key config version now
        (clearMemoryOnly key (setCache key value config version t st))).1 =
      some value)
    ∧
    ((getCache key config version now
        (clearMemoryOnly key (setCache key value config version t st))).2.memoryCache
          key = some ⟨value, t, version⟩) := by
  have hv : isValidCacheEntry (⟨value, t, version⟩ : CacheEntry α)
      config.ttl version now = true := by
    rw [isValidCacheEntry_eq_true_iff]
    exact ⟨by omega, rfl, hfresh⟩
  have hmem : (clearMemoryOnly key
      (setCache key value config version t st)).memoryCache key = none := by
    unfold clearMemoryOnly
    simp [updateMap]
  have hfile : (clearMemoryOnly key
      (setCache key value config version t st)).fileSystem (getCacheFilePath key) =
      some (FileContent.valid ⟨value, t, version⟩) := by
    unfold clearMemoryOnly setCache
    simp [hs, updateMap]
  constructor
  · unfold getCache
    rw [hmem]
    unfold getCacheFileTier
    rw [if_pos hs, hfile]
    simp [hv]
  · unfold getCache
    rw [hmem]
    unfold getCacheFileTier
    rw [if_pos hs, hfile]
    simp [hv, updateMap]

/-- Witness for C5: concrete write, restart, read, with promotion. -/
theorem getCache_promotes_from_file_witness :
    ((getCache "c" ⟨50, CacheStorage.file⟩ "v2" 30
        (clearMemoryOnly "c" (setCache "c" 9 ⟨50, CacheStorage.file⟩ "v2" 0
          (emptyCacheState Nat)))).1 = some 9)
    ∧
    ((getCache "c" ⟨50, CacheStorage.file⟩ "v2" 30
        (clearMemoryOnly "c" (setCache "c" 9 ⟨50, CacheStorage.file⟩ "v2" 0
          (emptyCacheState Nat)))).2.memoryCache "c" = some ⟨9, 0, "v2"⟩) :=
  getCache_promotes_from_file "c" 9 ⟨50, CacheStorage.file⟩ "v2" 0 30
    (emptyCacheState Nat) rfl (by decide) (by decide)

/-- C6: `getCache` is total (the embedded function never throws: the
source's try/catch around the file read is the `corrupt` branch), and when
the memory tier has no valid entry and the cache file is missing or
corrupt, the call is a plain miss that leaves the state unchanged. -/
theorem getCache_miss_on_missing_or_corrupt {α : Type} (key : String)
    (config : CacheConfig) (currentVersion : String) (now : Int)
    (st : CacheState α)
    (hmem : ∀ e, st.memoryCache key = some e →
      isValidCacheEntry e config.ttl currentVersion now = false)
    (hfile : st.fileSystem (getCacheFilePath key) = none ∨
      st.fileSystem (getCacheFilePath key) = some FileContent.corrupt) :
    getCache key config currentVersion now st = (none, st) := by
  have hft : getCacheFileTier key config currentVersion now st = (none, st) := by
    unfold getCacheFileTier
    by_cases hs : config.storage = CacheStorage.file
    · rcases hfile with h | h <;> simp [hs, h]
    · simp [hs]
  unfold getCache
  cases he : st.memoryCache key with
  | none => exact hft
  | some e =>
    have := hmem e he
    simp [this, hft]

/-- Witness for C6: a corrupt cache file and an invalid memory entry
(version mismatch) yield a miss without touching the state. -/
theorem getCache_miss_on_missing_or_corrupt_witness :
    getCache "k" ⟨100, CacheStorage.file⟩ "v2" 1
        { memoryCache := updateMap (fun _ => none) "k" (some ⟨5, 0, "v1"⟩),
          fileSystem :=
            updateMap (fun _ => none) (getCacheFilePath "k")
              (some (FileContent.corrupt (α := Nat))) } =
      (none,
       { memoryCache := updateMap (fun _ => none) "k" (some ⟨5, 0, "v1"⟩),
         fileSystem :=
           updateMap (fun _ => none) (getCacheFilePath "k")
             (some (FileContent.corrupt (α := Nat))) }) :=
  getCache_miss_on_missing_or_corrupt "k" ⟨100, CacheStorage.file⟩ "v2" 1 _
    (by
      intro e he
      have h2 : some (⟨5, 0, "v1"⟩ : CacheEntry Nat) = some e := he
      injection h2 with h3
      subst h3
      decide)
    (Or.inr (by simp [updateMap]))

/-- C3 (code bug): a failing file-tier write inside `setCache` is NOT
caught — there is no try/catch around `fs.writeFileSync` at line 533
(unlike `getCache`, `clearCache` and `clearAllCache`, which wrap their
file operations) — so the exception surfaces to the caller, while the
memory write of line 527 has already happened and is kept. -/
theorem setCacheF_write_failure_surfaces :
    ((setCacheF "k" 42 ⟨1000, CacheStorage.file⟩ "v" 0 false
        (emptyCacheState Nat)).1 = Except.error ())
    ∧
    ((setCacheF "k" 42 ⟨1000, CacheStorage.file⟩ "v" 0 false
        (emptyCacheState Nat)).2.memoryCache "k" = some ⟨42, 0, "v"⟩)
    ∧
    (∀ writeOk : Bool,
      (setCacheF "k" 42 ⟨1000, CacheStorage.file⟩ "v" 0 writeOk
          (emptyCacheState Nat)).2.memoryCache "k" = some ⟨42, 0, "v"⟩) := by
  refine ⟨rfl, ?_, ?_⟩
  · simp [setCacheF, updateMap]
  · intro writeOk
    cases writeOk <;> simp [setCacheF, updateMap]

/-- Two strings with the same character list are equal. -/
theorem string_eq_of_data_eq {a b : String} (h : a.data = b.data) : a = b := by
  cases a
  cases b
  exact congrArg String.mk h

/-- `String.append` concatenates the character lists. -/
theorem string_data_append (a b : String) : (a ++ b).data = a.data ++ b.data :=
  rfl

/-- A map that fixes every element of a list is the identity on it. -/
theorem map_eq_self_of_fixed {l : List Char} {f : Char → Char}
    (h : ∀ c ∈ l, f c = c) : l.map f = l := by
  induction l with
  | nil => rfl
  | cons c cs ih =>
    simp only [List.map_cons, List.cons.injEq]
    exact ⟨h c (List.mem_cons_self c cs), ih (fun d hd => h d (List.mem_cons_of_mem c hd))⟩

/-- `sanitizeKey` does not change a purely alphanumeric key. -/
theorem sanitizeKey_eq_self_of_alphanum {k : String}
    (h : ∀ c ∈ k.data, c.isAlphanum = true) : sanitizeKey k = k := by
  apply string_eq_of_data_eq
  show k.data.map _ = k.data
  apply map_eq_self_of_fixed
  intro c hc
  simp [h c hc]

/-- C4 counterexample: the key-to-filename transform is not injective —
the distinct keys "a.b" and "a-b" are mapped to the same cache file. -/
theorem getCacheFilePath_collision :
    getCacheFilePath "a.b" = getCacheFilePath "a-b" ∧
      ("a.b" : String) ≠ "a-b" := by
  constructor
  · rfl
  · decide

/-- C4 amended: each key maps to exactly one file (the transform is a
function), and the transform is injective on keys consisting solely of
characters in `[A-Za-z0-9]`; distinct keys differing only in characters
outside that class may collide (see the counterexample). -/
theorem getCacheFilePath_injOn_alphanum (k1 k2 : String)
    (h1 : ∀ c ∈ k1.data, c.isAlphanum = true)
    (h2 : ∀ c ∈ k2.data, c.isAlphanum = true)
    (hne : k1 ≠ k2) : getCacheFilePath k1 ≠ getCacheFilePath k2 := by
  intro heq
  apply hne
  unfold getCacheFilePath at heq
  rw [sanitizeKey_eq_self_of_alphanum h1, sanitizeKey_eq_self_of_alphanum h2] at heq
  have hd := congrArg String.data heq
  rw [string_data_append, string_data_append, string_data_append,
    string_data_append] at hd
  exact string_eq_of_data_eq
    (List.append_cancel_left (List.append_cancel_right hd))

/-- Witness for C4 amended: two concrete alphanumeric keys get distinct
files. -/
theorem getCacheFilePath_injOn_alphanum_witness :
    getCacheFilePath "Button7" ≠ getCacheFilePath "Badge7" :=
  getCacheFilePath_injOn_alphanum "Button7" "Badge7" (by decide) (by decide)
    (by decide)

/-! ## Extraction pipeline (src/documentation/fetcher.ts) -/

/-- JavaScript `String.prototype.trim()`: strip whitespace from both ends
(defined on the character list so it evaluates by kernel reduction). -/
def jsTrim (s : String) : String :=
  String.mk
    (((s.data.dropWhile Char.isWhitespace).reverse.dropWhile
        Char.isWhitespace).reverse)

/-- `MantineComponentProp` from `src/types/index.ts`: one row of the props
table. -/
structure PropEntry where
  name : String
  type : String
  defaultValue : Option String
  description : String
  required : Bool
deriving DecidableEq

/-- The props-table loop of `fetchComponentDocFromWebsite`
(src/documentation/fetcher.ts lines 96-108): each table row is the list of
its `td` cell texts; a row with at least four cells yields one `PropEntry`
built from cells [name, type, default, description]; `defaultValue` is
dropped when the trimmed cell is empty (`|| undefined`); `required` is
`name-cell.includes('*')` on the untrimmed text; shorter rows are skipped. -/
def extractProps (rows : List (List String)) : List PropEntry :=
  rows.filterMap (fun columns =>
    match columns with
    | c0 :: c1 :: c2 :: c3 :: _ =>
      some
        { name := jsTrim c0
          type := jsTrim c1
          defaultValue := if jsTrim c2 = "" then none else some (jsTrim c2)
          description := jsTrim c3
          required := c0.data.contains '*' }
    | _ => none)

/-- C8: a props-table row with fewer than four columns emits no
`PropEntry`; a row with four or more columns emits exactly one entry built
from its first four columns, with `required` true iff the name cell
contains the `*` glyph. -/
theorem extractProps_row_spec (columns : List String)
    (rest : List (List String)) :
    (columns.length < 4 →
      extractProps (columns :: rest) = extractProps rest)
    ∧
    (∀ c0 c1 c2 c3 cs, columns = c0 :: c1 :: c2 :: c3 :: cs →
      extractProps (columns :: rest) =
        { name := jsTrim c0
          type := jsTrim c1
          defaultValue := if jsTrim c2 = "" then none else some (jsTrim c2)
          description := jsTrim c3
          required := c0.data.contains '*' } :: extractProps rest
      ∧ ((c0.data.contains '*') = true ↔ '*' ∈ c0.data)) := by
  constructor
  · intro hlen
    match columns, hlen with
    | [], _ => rfl
    | [_], _ => rfl
    | [_, _], _ => rfl
    | [_, _, _], _ => rfl
    | _ :: _ :: _ :: _ :: _, h => simp at h; omega
  · intro c0 c1 c2 c3 cs hcols
    subst hcols
    exact ⟨rfl, by simp⟩

/-- Witness for C8: a 3-column row is skipped; a 4-column row with a `*`
marker and a blank default cell yields exactly its entry. -/
theorem extractProps_row_spec_witness :
    extractProps [["name", "type", "default"]] = [] ∧
      extractProps [["radius *", "number", " ", "Border radius"]] =
        [{ name := "radius *"
           type := "number"
           defaultValue := none
           description := "Border radius"
           required := true }] := by
  constructor
  · exact (extractProps_row_spec ["name", "type", "default"] []).1 (by decide)
  · have h := ((extractProps_row_spec ["radius *", "number", " ", "Border radius"] []).2
      "radius *" "number" " " "Border radius" [] rfl).1
    rw [h]
    decide


/-- JavaScript `a.startsWith(b)`, on character lists. -/
def beginsWithList : List Char → List Char → Bool
  | _, [] => true
  | [], _ :: _ => false
  | a :: as, b :: bs => a = b && beginsWithList as bs

/-- JavaScript `s.startsWith(p)`. -/
def jsStartsWith (s p : String) : Bool :=
  beginsWithList s.data p.data

/-- JavaScript `s.endsWith(p)`: `p` is a suffix of `s`. -/
def jsEndsWith (s p : String) : Bool :=
  beginsWithList s.data.reverse p.data.reverse

/-- JavaScript `s.toLowerCase()` (for the ASCII range the code deals in). -/
def jsToLower (s : String) : String :=
  String.mk (s.data.map Char.toLower)

/-- `name.charAt(0).toUpperCase() + name.slice(1)`: the canonicalization
used for `normalizedName` and for related-component names
(src/documentation/fetcher.ts lines 65 and 146). -/
def jsCapitalize (s : String) : String :=
  match s.data with
  | [] => String.mk []
  | c :: cs => String.mk (c.toUpper :: cs)

/-- The segment after the last `'/'` of a list of characters. -/
def lastSegData (l : List Char) : List Char :=
  (l.reverse.takeWhile (fun c => c ≠ '/')).reverse

/-- JavaScript `href.split('/').pop()`: the last path segment. -/
def jsSplitPop (s : String) : String :=
  String.mk (lastSegData s.data)

/-- JavaScript `Array.from(new Set(xs))`: remove duplicates keeping the
first occurrence of each element (src/documentation/fetcher.ts line 160),
written with the filter on the recursive result so the recursion is
structural (filtering before or after deduplicating commutes). -/
def jsSetDedup : List String → List String
  | [] => []
  | x :: xs => x :: (jsSetDedup xs).filter (fun y => y ≠ x)

/-- The related-components loop of `fetchComponentDocFromWebsite`
(src/documentation/fetcher.ts lines 140-149 and 160): scan the page's
anchor `href`s in order; keep those that start with `/core/` and do not
end with the lowercased normalized name; capitalize the last path segment
when it is nonempty; finally deduplicate via `new Set`. -/
def relatedOfAnchor (normalizedName : String) (href : String) : Option String :=
  if jsStartsWith href "/core/" &&
      !(jsEndsWith href (jsToLower normalizedName)) then
    if jsSplitPop href = "" then none
    else some (jsCapitalize (jsSplitPop href))
  else none

/-- The full related-components extraction: process every anchor in page
order with `relatedOfAnchor` (under the canonicalized component name),
then deduplicate. -/
def extractRelatedComponents (componentName : String) (anchors : List String) :
    List String :=
  jsSetDedup (anchors.filterMap (relatedOfAnchor (jsCapitalize componentName)))

/-- A list begins with itself followed by anything. -/
theorem beginsWithList_append (a b : List Char) :
    beginsWithList (a ++ b) a = true := by
  induction a with
  | nil =>
    cases b with
    | nil => rfl
    | cons x xs => rfl
  | cons x xs ih => simp [beginsWithList, ih]

/-- The last path segment is a suffix of the list. -/
theorem lastSegData_suffix (l : List Char) :
    l = (l.reverse.dropWhile (fun c => c ≠ '/')).reverse ++ lastSegData l := by
  unfold lastSegData
  rw [← List.reverse_append, List.takeWhile_append_dropWhile,
    List.reverse_reverse]

/-- Characters of the last path segment are characters of the list. -/
theorem mem_of_mem_lastSegData {c : Char} {l : List Char}
    (h : c ∈ lastSegData l) : c ∈ l := by
  rw [lastSegData_suffix l]
  exact List.mem_append_right _ h

/-- A string ends with any (string whose data is a) suffix of its data. -/
theorem jsEndsWith_of_data_suffix (s p : String) (t : List Char)
    (h : s.data = t ++ p.data) : jsEndsWith s p = true := by
  unfold jsEndsWith
  rw [h, List.reverse_append]
  exact beginsWithList_append p.data.reverse t.reverse

/-- `Char.ofNat` of a valid codepoint has that codepoint as `toNat`. -/
theorem char_toNat_ofNat (n : Nat) (h : n.isValidChar) :
    (Char.ofNat n).toNat = n := by
  unfold Char.ofNat
  rw [dif_pos h]
  rfl

/-- A character fixed by `toLower` is recovered by `toLower ∘ toUpper`
(lowercase letters round-trip; everything else is fixed by both). -/
theorem toLower_toUpper_fixed (c : Char) (h : c.toLower = c) :
    c.toUpper.toLower = c := by
  unfold Char.toUpper
  by_cases h97 : c.toNat ≥ 97 ∧ c.toNat ≤ 122
  · rw [if_pos h97]
    have hvalid : (c.toNat - 32).isValidChar := Or.inl (by omega)
    have ht : (Char.ofNat (c.toNat - 32)).toNat = c.toNat - 32 :=
      char_toNat_ofNat _ hvalid
    unfold Char.toLower
    rw [ht, if_pos (by omega : c.toNat - 32 ≥ 65 ∧ c.toNat - 32 ≤ 90)]
    rw [(by omega : c.toNat - 32 + 32 = c.toNat), Char.ofNat_toNat]
  · rw [if_neg h97]
    exact h

/-- Elements of the deduplicated list come from the original list. -/
theorem mem_of_mem_jsSetDedup {a : String} :
    ∀ {l : List String}, a ∈ jsSetDedup l → a ∈ l := by
  intro l
  induction l with
  | nil => intro h; exact absurd h (by simp [jsSetDedup])
  | cons x xs ih =>
    intro h
    rw [jsSetDedup] at h
    rcases List.mem_cons.mp h with h | h
    · exact h ▸ List.mem_cons_self x xs
    · exact List.mem_cons_of_mem x (ih (List.mem_of_mem_filter h))

/-- The deduplicated list has no duplicates. -/
theorem jsSetDedup_nodup : ∀ (l : List String), (jsSetDedup l).Nodup := by
  intro l
  induction l with
  | nil => simp [jsSetDedup]
  | cons x xs ih =>
    rw [jsSetDedup]
    refine List.nodup_cons.mpr ⟨?_, List.Nodup.filter _ ih⟩
    intro hx
    have := (List.mem_filter.mp hx).2
    simp at this

/-- C7 counterexample: on a page whose only anchor is `/core/Button`
(the component's own page linked with a capitalized final segment), the
extraction for component "button" returns the component's own canonical
name: the self-link filter compares case-sensitively against the
lowercased name while the emitted name is capitalized. -/
theorem relatedComponents_contains_self :
    extractRelatedComponents "button" ["/core/Button"] =
        [jsCapitalize "button"] ∧
      jsCapitalize "button" = "Button" := by
  constructor
  · decide
  · decide

/-- C7 amended: `relatedComponents` never contains duplicates; and it
never contains the component's own canonical name provided every anchor
`href` on the page is lowercase (no uppercase ASCII characters), which is
the canonical form of the site's `/core/...` paths — a link to the own
page whose final segment carries different casing escapes the filter (see
the counterexample). -/
theorem relatedComponents_nodup_no_self (componentName : String)
    (anchors : List String) :
    (extractRelatedComponents componentName anchors).Nodup
    ∧ ((∀ href ∈ anchors, ∀ c ∈ href.data, c.toLower = c) →
        jsCapitalize componentName ∉
          extractRelatedComponents componentName anchors) := by
  constructor
  · exact jsSetDedup_nodup _
  · intro hlow hmem
    have hmem2 : jsCapitalize componentName ∈
        anchors.filterMap (relatedOfAnchor (jsCapitalize componentName)) :=
      mem_of_mem_jsSetDedup hmem
    obtain ⟨href, hhref, hproc⟩ := List.mem_filterMap.mp hmem2
    unfold relatedOfAnchor at hproc
    by_cases hcond : (jsStartsWith href "/core/" &&
        !jsEndsWith href (jsToLower (jsCapitalize componentName))) = true
    case neg => rw [if_neg hcond] at hproc; exact Option.noConfusion hproc
    rw [if_pos hcond] at hproc
    rw [Bool.and_eq_true] at hcond
    obtain ⟨hstart, hnend'⟩ := hcond
    have hnend : jsEndsWith href (jsToLower (jsCapitalize componentName)) =
        false := by simpa using hnend'
    by_cases hseg : jsSplitPop href = ""
    case pos => rw [if_pos hseg] at hproc; exact Option.noConfusion hproc
    rw [if_neg hseg] at hproc
    injection hproc with hinj
    have hfix : ∀ c ∈ (jsSplitPop href).data, c.toLower = c := by
      intro c hc
      exact hlow href hhref c (mem_of_mem_lastSegData hc)
    cases hsd : (jsSplitPop href).data with
    | nil =>
      exact hseg (string_eq_of_data_eq (by rw [hsd]))
    | cons a s2 =>
      have hc1 : jsCapitalize (jsSplitPop href) = String.mk (a.toUpper :: s2) := by
        unfold jsCapitalize
        rw [hsd]
      cases hcn : componentName.data with
      | nil =>
        have hc2 : jsCapitalize componentName = String.mk [] := by
          unfold jsCapitalize
          rw [hcn]
        rw [hc1, hc2] at hinj
        have := congrArg String.data hinj
        exact List.noConfusion this
      | cons b n2 =>
        have hc2 : jsCapitalize componentName = String.mk (b.toUpper :: n2) := by
          unfold jsCapitalize
          rw [hcn]
        rw [hc1, hc2] at hinj
        have hd : a.toUpper :: s2 = b.toUpper :: n2 := congrArg String.data hinj
        injection hd with hab hsn
        have ha : a.toLower = a := hfix a (by rw [hsd]; exact List.mem_cons_self _ _)
        have hs2 : ∀ c ∈ s2, c.toLower = c := fun c hc =>
          hfix c (by rw [hsd]; exact List.mem_cons_of_mem _ hc)
        have hlower_data :
            (jsToLower (jsCapitalize componentName)).data = a :: s2 := by
          rw [hc2]
          show (b.toUpper :: n2).map Char.toLower = a :: s2
          rw [List.map_cons]
          congr 1
          · rw [← hab, toLower_toUpper_fixed a ha]
          · rw [← hsn]
            exact map_eq_self_of_fixed hs2
        have hsuffix : href.data =
            (href.data.reverse.dropWhile (fun c => c ≠ '/')).reverse ++
              (jsToLower (jsCapitalize componentName)).data := by
          rw [hlower_data, ← hsd]
          exact lastSegData_suffix href.data
        have hend : jsEndsWith href (jsToLower (jsCapitalize componentName)) =
            true := jsEndsWith_of_data_suffix _ _ _ hsuffix
        rw [hnend] at hend
        exact Bool.noConfusion hend

/-- Witness for C7 amended: a lowercase page with a repeated sibling link
and an own-page link produces a duplicate-free list without the component
itself. -/
theorem relatedComponents_nodup_no_self_witness :
    (extractRelatedComponents "button" ["/core/badge", "/core/badge",
        "/core/button"]).Nodup
    ∧ jsCapitalize "button" ∉
        extractRelatedComponents "button" ["/core/badge", "/core/badge",
          "/core/button"] :=
  ⟨(relatedComponents_nodup_no_self "button"
      ["/core/badge", "/core/badge", "/core/button"]).1,
   (relatedComponents_nodup_no_self "button"
      ["/core/badge", "/core/badge", "/core/button"]).2 (by decide)⟩

/-- The outcomes of the three fallible rendering steps inside
`fetchComponentDocFromWebsite` (src/documentation/fetcher.ts lines 70-87):
`page.goto` (line 78) can reject with a navigation error,
`page.waitForSelector` (line 81) can time out, and `page.content`
(line 84) can reject. -/
structure FetchEnv where
  navigationFails : Bool
  selectorTimesOut : Bool
  contentFails : Bool
deriving DecidableEq

/-- The browser lifecycle of one `fetchComponentDocFromWebsite` call
(src/documentation/fetcher.ts lines 70-87 and 163-166), after
`puppeteer.launch` succeeded.  First component: the call's outcome
(`Except.error` = the catch block logs and rethrows).  Second component:
whether `browser.close()` (line 87) ran before the call exited.  The
`waitForSelector` timeout is swallowed by its `.catch(() => {})`, so it
does not branch; a `goto` or `content` rejection jumps to the catch block,
which rethrows without closing the browser. -/
def fetchSession (env : FetchEnv) : Except Unit Unit × Bool :=
  if env.navigationFails then (Except.error (), false)
  else if env.contentFails then (Except.error (), false)
  else (Except.ok (), true)

/-- C9 (code bug): the browser is closed on the success path and on the
selector-timeout path, but a navigation (or content) error exits through
the catch block with the browser still open — the release is not
guaranteed on every exit path. -/
theorem fetchSession_browser_leak :
    (fetchSession ⟨true, false, false⟩ = (Except.error (), false))
    ∧ (fetchSession ⟨false, true, false⟩ = (Except.ok (), true))
    ∧ (fetchSession ⟨false, false, false⟩ = (Except.ok (), true))
    ∧ (fetchSession ⟨false, false, true⟩ = (Except.error (), false)) :=
  ⟨rfl, rfl, rfl, rfl⟩
